import Mathlib

/-!
Shallow embedding of the brazilian-utils library (validators, formatters and
generators for Brazilian identification numbers) together with proofs about
the claims of its specification.

Strings are embedded as `List Char`.  The library's shared helpers
(`onlyNumbers`, `isLastChar`, `generateChecksum`, `generateRandomNumber`) and
the static state/city data live outside the available sources and are
modelled from the spec where needed; every other definition is a direct
translation of the corresponding TypeScript function.
-/

/-- Embedded JavaScript string: a list of characters. -/
abbrev Str := List Char

/-- Numeric value of a digit character (JS unary plus / `Number` on a one-digit string). -/
def charToDigit (c : Char) : Nat := c.toNat - 48

/-- The digit character for a value below ten. -/
def digitChar (d : Nat) : Char := Char.ofNat (48 + d)

/-- Modelled from the spec: the shared digit-extractor helper `onlyNumbers`
(spec 4.1): returns the ordered ASCII digits of the input, discarding every
other character; total, empty input yields empty output. -/
def onlyNumbers (value : Str) : Str := value.filter Char.isDigit

/-- Modelled from the spec: the shared helper `isLastChar(i, value)` used by the
positional formatters (spec 4.2: a separator is suppressed "when that position
is the last character" of the string), i.e. the test `i === value.length - 1`
for a non-negative JS index. -/
def isLastChar (i : Nat) (value : Str) : Bool := i + 1 == value.length

/-- Value of a digit string read as a number (JS `Number` / `parseInt` on an
all-digit string; exact integer arithmetic, the float rounding JS applies
beyond 2^53 is not modelled and never reached by the claims settled here). -/
def natOfDigits (s : Str) : Nat := s.foldl (fun acc c => 10 * acc + charToDigit c) 0

/-- Modelled from the spec: the checksum engine called with a numeric weight
(spec 4.3, CPF style): the i-th digit, left to right, is multiplied by
`w - i`, and the products are summed.  Every call site passes a weight larger
than the digit count, so the natural subtraction never truncates there. -/
def generateChecksumDesc (value : Str) (w : Nat) : Nat :=
  value.enum.foldl (fun acc p => acc + charToDigit p.2 * (w - p.1)) 0

/-- Modelled from the spec: the checksum engine called with an explicit weight
table (spec 4.3, CNPJ/PIS style): the i-th digit is multiplied by the i-th
weight.  Call sites always supply at least as many weights as digits. -/
def generateChecksumW (value : Str) (weights : List Nat) : Nat :=
  (value.zip weights).foldl (fun acc p => acc + charToDigit p.1 * p.2) 0

/-- JS `String.prototype.padStart` with a one-character pad. -/
def padStart (s : Str) (n : Nat) (c : Char) : Str :=
  List.replicate (n - s.length) c ++ s

/-- A JavaScript argument as seen by the `!x || typeof x !== 'string'` guard
opening each validator: a proper string, an absent value (`null`/`undefined`),
or any non-string value (number, object, ...). -/
inductive JSInput where
  | absent : JSInput
  | nonString : JSInput
  | str : Str → JSInput

/-- Consume exactly `n` digit characters (the regex piece `\d{n}`). -/
def matchDigits : Nat → Str → Option Str
  | 0, s => some s
  | _ + 1, [] => none
  | n + 1, c :: rest => if c.isDigit then matchDigits n rest else none

/-- Consume an optional literal character (the regex piece `x?`).  Greedy
matching is exact here because every such literal in the library's anchored
format regexes is a separator that cannot also start the following `\d`
piece, so no backtracking can change the outcome. -/
def skipOpt (ch : Char) : Str → Str
  | [] => []
  | c :: rest => if c == ch then rest else c :: rest

namespace Cpf

def LENGTH : Nat := 11

def DOT_INDEXES : List Nat := [2, 5]

def HYPHEN_INDEXES : List Nat := [8]

def RESERVED_NUMBERS : List Str :=
  ["00000000000".toList, "11111111111".toList, "22222222222".toList,
   "33333333333".toList, "44444444444".toList, "55555555555".toList,
   "66666666666".toList, "77777777777".toList, "88888888888".toList,
   "99999999999".toList]

def CHECK_DIGITS_INDEXES : List Nat := [9, 10]

/-- `cpf.format`: strip to digits, optionally left-pad with zeros to the fixed
length, truncate to the fixed length, and rebuild the string inserting a dot
after indexes 2 and 5 and a hyphen after index 8, each suppressed when the
index is the last character of the (padded, untruncated) digit string. -/
def format (cpf : Str) (pad : Bool) : Str :=
  let digits0 := onlyNumbers cpf
  let digits := if pad then padStart digits0 LENGTH '0' else digits0
  ((digits.take LENGTH).enum).foldl
    (fun acc p =>
      let result := acc ++ [p.2]
      if !(isLastChar p.1 digits) then
        if DOT_INDEXES.contains p.1 then result ++ ['.']
        else if HYPHEN_INDEXES.contains p.1 then result ++ ['-']
        else result
      else result)
    []

/-- `cpf.generate` as a function of its random draws: `draws` are the eight
leading random digits and `ninth` the ninth base digit — per the source either
`STATES_DATA[state].code` (modelled from the spec, 4.5 and 6: the state table
assigns each state a one-digit numeric code embedded as one fixed digit) or a
ninth random draw when no known state is supplied. -/
def generate (draws : List Nat) (ninth : Nat) : Str :=
  let baseCPF : Str := draws.map digitChar ++ [digitChar ninth]
  let firstCheckDigitMod := generateChecksumDesc baseCPF 10 % 11
  let firstCheckDigit := if firstCheckDigitMod < 2 then 0 else 11 - firstCheckDigitMod
  let secondCheckDigitMod :=
    generateChecksumDesc (baseCPF ++ [digitChar firstCheckDigit]) 11 % 11
  let secondCheckDigit := if secondCheckDigitMod < 2 then 0 else 11 - secondCheckDigitMod
  baseCPF ++ [digitChar firstCheckDigit, digitChar secondCheckDigit]

/-- The anchored CPF format regex of the source,
three digits, optional dot, three digits, optional dot, three digits,
optional hyphen, two digits; sequential greedy matching is exact since
dots and hyphens are not digits. -/
def isValidFormat (cpf : Str) : Bool :=
  match matchDigits 3 cpf with
  | none => false
  | some s1 =>
    match matchDigits 3 (skipOpt '.' s1) with
    | none => false
    | some s2 =>
      match matchDigits 3 (skipOpt '.' s2) with
      | none => false
      | some s3 =>
        match matchDigits 2 (skipOpt '-' s3) with
        | none => false
        | some s4 => s4.isEmpty

def isReservedNumber (cpf : Str) : Bool := RESERVED_NUMBERS.contains cpf

/-- One step of `cpf.isValidChecksum`: recompute the check digit over the
prefix before index `i` with numeric weight `i + 1` and compare it with the
character at `i` (the inner string-identity reduce of the source is dropped;
a missing character compares unequal, as in JS). -/
def checkDigitAt (cpf : Str) (i : Nat) : Bool :=
  let mod := generateChecksumDesc (cpf.take i) (i + 1) % 11
  cpf.get? i == some (digitChar (if mod < 2 then 0 else 11 - mod))

def isValidChecksum (cpf : Str) : Bool :=
  CHECK_DIGITS_INDEXES.all (checkDigitAt cpf)

/-- Body of `cpf.isValid` after the guard. -/
def isValidStr (cpf : Str) : Bool :=
  let digits := onlyNumbers cpf
  isValidFormat cpf && !(isReservedNumber digits) && isValidChecksum digits

/-- `cpf.isValid` including its falsy/non-string guard (`!cpf` is the
emptiness test on a string input). -/
def isValid : JSInput → Bool
  | JSInput.str s => if s.isEmpty then false else isValidStr s
  | _ => false

end Cpf

example : Cpf.format "12345678909".toList false = "123.456.789-09".toList := by decide

example : Cpf.isValidStr "11144477735".toList = true := by decide

example : Cpf.isValidStr "11111111111".toList = false := by decide

example : Cpf.generate [0, 0, 0, 0, 0, 0, 0, 0] 0 = "00000000000".toList := by decide

example : Cpf.generate [1, 1, 1, 4, 4, 4, 7, 7] 7 = "11144477735".toList := by decide

namespace Cnpj

def LENGTH : Nat := 14

def DOT_INDEXES : List Nat := [1, 4]

def SLASH_INDEXES : List Nat := [7]

def HYPHEN_INDEXES : List Nat := [11]

def RESERVED_NUMBERS : List Str :=
  ["00000000000000".toList, "11111111111111".toList, "22222222222222".toList,
   "33333333333333".toList, "44444444444444".toList, "55555555555555".toList,
   "66666666666666".toList, "77777777777777".toList, "88888888888888".toList,
   "99999999999999".toList]

def CHECK_DIGITS_INDEXES : List Nat := [12, 13]

def FIRST_CHECK_DIGIT_WEIGHTS : List Nat := [5, 4, 3, 2, 9, 8, 7, 6, 5, 4, 3, 2]

def SECOND_CHECK_DIGIT_WEIGHTS : List Nat := 6 :: FIRST_CHECK_DIGIT_WEIGHTS

/-- `cnpj.format`: strip to digits, optionally zero-pad to the fixed length,
truncate, and insert dots after indexes 1 and 4, a slash after 7 and a hyphen
after 11, each suppressed on the last character of the digit string. -/
def format (cnpj : Str) (pad : Bool) : Str :=
  let digits0 := onlyNumbers cnpj
  let digits := if pad then padStart digits0 LENGTH '0' else digits0
  ((digits.take LENGTH).enum).foldl
    (fun acc p =>
      let result := acc ++ [p.2]
      if !(isLastChar p.1 digits) then
        if DOT_INDEXES.contains p.1 then result ++ ['.']
        else if SLASH_INDEXES.contains p.1 then result ++ ['/']
        else if HYPHEN_INDEXES.contains p.1 then result ++ ['-']
        else result
      else result)
    []

/-- `cnpj.generate` as a function of its twelve random digit draws. -/
def generate (draws : List Nat) : Str :=
  let baseCNPJ : Str := draws.map digitChar
  let firstCheckDigitMod := generateChecksumW baseCNPJ FIRST_CHECK_DIGIT_WEIGHTS % 11
  let firstCheckDigit := if firstCheckDigitMod < 2 then 0 else 11 - firstCheckDigitMod
  let secondCheckDigitMod :=
    generateChecksumW (baseCNPJ ++ [digitChar firstCheckDigit]) SECOND_CHECK_DIGIT_WEIGHTS % 11
  let secondCheckDigit := if secondCheckDigitMod < 2 then 0 else 11 - secondCheckDigitMod
  baseCNPJ ++ [digitChar firstCheckDigit, digitChar secondCheckDigit]

/-- The anchored CNPJ format regex of the source: two digits, optional dot,
three digits, optional dot, three digits, optional slash, four digits,
optional hyphen, two digits. -/
def isValidFormat (cnpj : Str) : Bool :=
  match matchDigits 2 cnpj with
  | none => false
  | some s1 =>
    match matchDigits 3 (skipOpt '.' s1) with
    | none => false
    | some s2 =>
      match matchDigits 3 (skipOpt '.' s2) with
      | none => false
      | some s3 =>
        match matchDigits 4 (skipOpt '/' s3) with
        | none => false
        | some s4 =>
          match matchDigits 2 (skipOpt '-' s4) with
          | none => false
          | some s5 => s5.isEmpty

def isReservedNumber (cnpj : Str) : Bool := RESERVED_NUMBERS.contains cnpj

/-- `cnpj.isValidChecksum`: the source iterates `every` over the check-digit
indexes with a mutable copy of the first weight table, prepending 6 when the
last index is reached, so index 12 is checked with the first and index 13 with
the second weight table; embedded as a fold threading the weight list (the
short-circuit of `every` cannot change the boolean result). -/
def isValidChecksum (cnpj : Str) : Bool :=
  (CHECK_DIGITS_INDEXES.foldl
    (fun st i =>
      let ws := if some i == CHECK_DIGITS_INDEXES.getLast? then 6 :: st.2 else st.2
      let mod := generateChecksumW (cnpj.take i) ws % 11
      (st.1 && (cnpj.get? i == some (digitChar (if mod < 2 then 0 else 11 - mod))), ws))
    (true, FIRST_CHECK_DIGIT_WEIGHTS)).1

/-- Body of `cnpj.isValid` after the guard. -/
def isValidStr (cnpj : Str) : Bool :=
  let numbers := onlyNumbers cnpj
  isValidFormat cnpj && !(isReservedNumber numbers) && isValidChecksum numbers

/-- `cnpj.isValid` including its falsy/non-string guard. -/
def isValid : JSInput → Bool
  | JSInput.str s => if s.isEmpty then false else isValidStr s
  | _ => false

end Cnpj

example : Cnpj.format "11222333000181".toList false = "11.222.333/0001-81".toList := by
  decide

example : Cnpj.isValidStr "11222333000181".toList = true := by decide

example : Cnpj.generate [1, 1, 2, 2, 2, 3, 3, 3, 0, 0, 0, 1] = "11222333000181".toList := by
  decide

namespace Cep

def LENGTH : Nat := 8

def HYPHEN_INDEXES : List Nat := [4]

def isValidLength (cep : Str) : Bool := cep.length == LENGTH

/-- `cep.format`: strip to digits, truncate to eight, insert a hyphen after
index 4 unless it is the last character of the digit string. -/
def format (cep : Str) : Str :=
  let digits := onlyNumbers cep
  ((digits.take LENGTH).enum).foldl
    (fun acc p =>
      let result := acc ++ [p.2]
      if !(isLastChar p.1 digits) then
        if HYPHEN_INDEXES.contains p.1 then result ++ ['-']
        else result
      else result)
    []

/-- Body of `cep.isValid` after the guard: only the digit count is checked. -/
def isValidStr (cep : Str) : Bool := isValidLength (onlyNumbers cep)

/-- `cep.isValid` including its falsy/non-string guard. -/
def isValid : JSInput → Bool
  | JSInput.str s => if s.isEmpty then false else isValidStr s
  | _ => false

end Cep

example : Cep.format "01310100".toList = "01310-100".toList := by decide

example : Cep.isValidStr "01310100".toList = true := by decide

example : Cep.isValidStr "123".toList = false := by decide

/-- JS `String.prototype.charAt`: the one-character string at `i`, or the
empty string out of range (so JS `Number(s.charAt(i))` is
`natOfDigits (charAt s i)` on digit strings, with `Number of the empty
string` being 0). -/
def charAt (s : Str) (i : Nat) : Str :=
  match s.get? i with
  | some c => [c]
  | none => []

namespace Phone

def PHONE_MIN_LENGTH : Nat := 10

def PHONE_MAX_LENGTH : Nat := 11

def MOBILE_VALID_FIRST_NUMBERS : List Nat := [6, 7, 8, 9]

def LANDLINE_VALID_FIRST_NUMBERS : List Nat := [2, 3, 4, 5]

/-- `isValidDDD`, parametrized by the area-code list: the source flattens
`VALID_AREA_CODES` out of the external state table, which is not among the
available sources; the claims settled here hold for every such list, so the
embedding takes it as an argument (spec 4.4: membership of the two-digit
prefix in the known area-code set). -/
def isValidDDD (areaCodes : List Nat) (phone : Str) : Bool :=
  areaCodes.contains (natOfDigits (phone.take 2))

def isValidMobilePhoneLength (phone : Str) : Bool :=
  phone.length == PHONE_MAX_LENGTH

def isValidLandlinePhoneLength (phone : Str) : Bool :=
  decide (PHONE_MIN_LENGTH ≤ phone.length ∧ phone.length < PHONE_MAX_LENGTH)

def isValidLength (phone : Str) : Bool :=
  isValidLandlinePhoneLength phone || isValidMobilePhoneLength phone

def isValidMobilePhoneFirstNumber (phone : Str) : Bool :=
  MOBILE_VALID_FIRST_NUMBERS.contains (natOfDigits (charAt phone 2))

def isValidLandlinePhoneFirstNumber (phone : Str) : Bool :=
  LANDLINE_VALID_FIRST_NUMBERS.contains (natOfDigits (charAt phone 2))

def isValidFirstNumber (phone : Str) : Bool :=
  if phone.length == PHONE_MIN_LENGTH then isValidLandlinePhoneFirstNumber phone
  else isValidMobilePhoneFirstNumber phone

/-- Body of `phone.isValid` on the extracted digits (after
`parsePhoneDigits`). -/
def isValidStr (areaCodes : List Nat) (phone : Str) : Bool :=
  let digits := onlyNumbers phone
  isValidLength digits && isValidFirstNumber digits && isValidDDD areaCodes digits

/-- `phone.isValid` including the `parsePhoneDigits` falsy/non-string test. -/
def isValid (areaCodes : List Nat) : JSInput → Bool
  | JSInput.str s => if s.isEmpty then false else isValidStr areaCodes s
  | _ => false

end Phone

example : Phone.isValidStr [11] "11987654321".toList = true := by decide

example : Phone.isValidStr [11] "1140028922".toList = true := by decide

example : Phone.isValidStr [11] "11587654321".toList = false := by decide

namespace Pis

def LENGTH : Nat := 11

def WEIGHTS : List Nat := [3, 2, 9, 8, 7, 6, 5, 4, 3, 2]

def RESERVED_NUMBERS : List Str :=
  ["00000000000".toList, "11111111111".toList, "22222222222".toList,
   "33333333333".toList, "44444444444".toList, "55555555555".toList,
   "66666666666".toList, "77777777777".toList, "88888888888".toList,
   "99999999999".toList]

def isValidLength (pis : Str) : Bool := pis.length == LENGTH

def isReservedNumber (pis : Str) : Bool := RESERVED_NUMBERS.contains pis

/-- The source regex test `^[0-9]+$`: non-empty and all digits. -/
def hasOnlyNumbers (pis : Str) : Bool := !pis.isEmpty && pis.all Char.isDigit

/-- `removeSeparators`: drops spaces, parentheses, dots, commas, asterisks and
hyphens. -/
def removeSeparators (pis : Str) : Str :=
  pis.filter (fun c => !([' ', '(', ')', '.', ',', '*', '-'].contains c))

/-- Body of `pis.isValid` after the guard: length, reserved-number and
digit-only checks, then the weighted mod-11 rule with the dual 10/11 to 0
mapping of the source. -/
def isValidStr (pis : Str) : Bool :=
  let numeric := removeSeparators pis
  if !(isValidLength numeric) || isReservedNumber numeric || !(hasOnlyNumbers numeric)
  then false
  else
    let weightedChecksum := generateChecksumW (numeric.take (numeric.length - 1)) WEIGHTS
    let verifyingDigit := natOfDigits (charAt numeric (numeric.length - 1))
    let calculatedDigit := 11 - weightedChecksum % 11
    decide (calculatedDigit = verifyingDigit) ||
      (decide (calculatedDigit = 10) && decide (verifyingDigit = 0)) ||
      (decide (calculatedDigit = 11) && decide (verifyingDigit = 0))

/-- `pis.isValid` including its falsy/non-string guard. -/
def isValid : JSInput → Bool
  | JSInput.str s => if s.isEmpty then false else isValidStr s
  | _ => false

end Pis

example : Pis.isValidStr "12056874107".toList = true := by decide

example : Pis.isValidStr "120.56874.10-7".toList = true := by decide

example : Pis.isValidStr "00000000000".toList = false := by decide

/-- JS `String.prototype.substring(a, b)` at the call sites of the library
(always `a < b`): the characters from index `a` (inclusive) to `b`
(exclusive). -/
def substring (s : Str) (a b : Nat) : Str := (s.take b).drop a

namespace Boleto

/-- One entry of the `PARTIALS` table: a field of the digitable line
(`start` inclusive to `end` exclusive) and the index of its mod-10 check
digit. -/
structure Part where
  startPos : Nat
  endPos : Nat
  checkPos : Nat

def PARTIALS : List Part :=
  [{ startPos := 0, endPos := 9, checkPos := 9 },
   { startPos := 10, endPos := 20, checkPos := 20 },
   { startPos := 21, endPos := 31, checkPos := 31 }]

def DOT_INDEXES : List Nat := [4, 14, 25]

def SPACE_INDEXES : List Nat := [9, 20, 31, 32]

def LENGTH : Nat := 47

def CHECK_DIGIT_POSITION : Nat := 4

def MOD_11_WEIGHTS_INITIAL : Nat := 2

def MOD_11_WEIGHTS_END : Nat := 9

def MOD_10_WEIGHTS : List Nat := [2, 1]

def isValidLength (digitableLine : Str) : Bool := digitableLine.length == LENGTH

/-- `mod10`: reversed digits weighted alternately 2, 1; two-digit products are
folded to `1 + product % 10`; the check digit is `10 - sum % 10`, with a zero
remainder mapped to 0. -/
def mod10 (p : Str) : Nat :=
  let sum :=
    (p.reverse.enum).foldl
      (fun acc q =>
        let result := charToDigit q.2 * MOD_10_WEIGHTS.getD (q.1 % 2) 0
        acc + (if result > 9 then 1 + result % 10 else result))
      0
  let m := sum % 10
  if m > 0 then 10 - m else 0

/-- `mod11`: reversed digits with weights starting at 2 and cycling up to 9;
remainders 0 and 1 both map to check digit 1, any other remainder `m` to
`11 - m`.  The mutable `weight` variable of the source is threaded through the
fold. -/
def mod11 (value : Str) : Nat :=
  let sum :=
    (value.reverse.foldl
      (fun st digit =>
        let result := charToDigit digit * st.2
        let weight :=
          if st.2 < MOD_11_WEIGHTS_END then st.2 + 1 else MOD_11_WEIGHTS_INITIAL
        (st.1 + result, weight))
      (0, MOD_11_WEIGHTS_INITIAL)).1
  let m := sum % 11
  if m == 0 || m == 1 then 1 else 11 - m

/-- `isValidPartials`: each of the three fields must carry its mod-10 check
digit at the configured index (a missing character compares unequal, as JS
`+undefined` is `NaN`). -/
def isValidPartials (digitableLine : Str) : Bool :=
  PARTIALS.all
    (fun p =>
      let m := mod10 (substring digitableLine p.startPos p.endPos)
      match digitableLine.get? p.checkPos with
      | some c => charToDigit c == m
      | none => false)

/-- The `DIGITABLE_LINE_TO_BOLETO_CONVERT_POSITIONS` table as (start, end)
pairs, in the source's order. -/
def CONVERT_POSITIONS : List (Nat × Nat) :=
  [(0, 4), (32, 47), (4, 9), (10, 20), (21, 31)]

/-- `parse`: rearrange the digitable line into the 4-field boleto layout by
concatenating the configured substrings. -/
def parse (digitableLine : Str) : Str :=
  CONVERT_POSITIONS.foldl (fun acc p => acc ++ substring digitableLine p.1 p.2) []

/-- `isValidCheckDigit`: the character at position 4 of the rearranged line
must equal the mod-11 check digit of the line with that position removed. -/
def isValidCheckDigit (parsedDigitableLine : Str) : Bool :=
  let m :=
    mod11
      (parsedDigitableLine.take CHECK_DIGIT_POSITION ++
        parsedDigitableLine.drop (CHECK_DIGIT_POSITION + 1))
  match parsedDigitableLine.get? CHECK_DIGIT_POSITION with
  | some c => charToDigit c == m
  | none => false

/-- Body of `boleto.isValid` after the guard. -/
def isValidStr (digitableLine : Str) : Bool :=
  let digits := onlyNumbers digitableLine
  if !(isValidLength digits) then false
  else if !(isValidPartials digits) then false
  else isValidCheckDigit (parse digits)

/-- `boleto.isValid` including its falsy/non-string guard. -/
def isValid : JSInput → Bool
  | JSInput.str s => if s.isEmpty then false else isValidStr s
  | _ => false

/-- `boleto.format`: strip to digits, truncate to 47, insert dots after
indexes 4, 14 and 25 and spaces after 9, 20, 31 and 32, suppressed on the
last character of the digit string. -/
def format (boleto : Str) : Str :=
  let digits := onlyNumbers boleto
  ((digits.take LENGTH).enum).foldl
    (fun acc p =>
      let result := acc ++ [p.2]
      if !(isLastChar p.1 digits) then
        if DOT_INDEXES.contains p.1 then result ++ ['.']
        else if SPACE_INDEXES.contains p.1 then result ++ [' ']
        else result
      else result)
    []

end Boleto

example :
    Boleto.isValidStr "00000000000000000000000000000000100000000000000".toList = true := by
  decide

example :
    Boleto.isValidStr "00000000000000000000000000000000000000000000000".toList = false := by
  decide

namespace Processo

def LENGTH : Nat := 20

def DOT_INDEXES : List Nat := [8, 12, 15]

def HYPHEN_INDEXES : List Nat := [6]

def CHECK_DIGIT_START_POSITION : Nat := 7

def CHECK_DIGIT_LENGTH : Nat := 2

def MOD_97_10_QUOCIENT : Nat := 97

def MOD_97_10_SUM : Nat := 98

/-- `processoJuridico.format`: strip to digits, truncate to 20, insert dots
after indexes 8, 12 and 15 and a hyphen after 6.  Unlike every other
formatter of the library, the source passes the raw input — not the digit
string — to `isLastChar`, so suppression of a trailing separator is decided
against the raw input's length. -/
def format (processoJuridico : Str) : Str :=
  let digits := onlyNumbers processoJuridico
  ((digits.take LENGTH).enum).foldl
    (fun acc p =>
      let result := acc ++ [p.2]
      if !(isLastChar p.1 processoJuridico) then
        if DOT_INDEXES.contains p.1 then result ++ ['.']
        else if HYPHEN_INDEXES.contains p.1 then result ++ ['-']
        else result
      else result)
    []

/-- `verifyDigit`: splice out the two check digits at positions 7-8, read the
first 11 remaining digits as a number and reduce it mod 97, then combine the
remainder with the last 7 remaining digits (shifted by 10^9, i.e. 10^7 for
the digits and 10^2 for the appended "00") and reduce mod 97 again; the
verifier `98 - remainder` must equal the two check digits read as a number.
JS floats are exact on all intermediate values here, so natural-number
arithmetic is a faithful model. -/
def verifyDigit (processo : Str) : Bool :=
  let verificationDigits :=
    (processo.drop CHECK_DIGIT_START_POSITION).take CHECK_DIGIT_LENGTH
  let digits :=
    processo.take CHECK_DIGIT_START_POSITION ++
      processo.drop (CHECK_DIGIT_START_POSITION + CHECK_DIGIT_LENGTH)
  let digits1to11 :=
    ((digits.take 11).enum).foldl
      (fun acc p => acc + charToDigit p.2 * 10 ^ (10 - p.1)) 0
  let firstRemainder := digits1to11 % MOD_97_10_QUOCIENT
  let digits12to18 :=
    ((digits.drop 11).enum).foldl
      (fun acc p => acc + charToDigit p.2 * 10 ^ (6 - p.1)) 0
  let secondRemainder :=
    (firstRemainder * 1000000000 + digits12to18 * 100) % MOD_97_10_QUOCIENT
  let verifier := MOD_97_10_SUM - secondRemainder
  verifier == natOfDigits verificationDigits

/-- Body of `processoJuridico.isValid` after the guard. -/
def isValidStr (processoJuridico : Str) : Bool :=
  let digits := onlyNumbers processoJuridico
  if digits.length != LENGTH then false
  else verifyDigit digits

/-- `processoJuridico.isValid` including its falsy/non-string guard. -/
def isValid : JSInput → Bool
  | JSInput.str s => if s.isEmpty then false else isValidStr s
  | _ => false

end Processo

example : Processo.isValidStr "00000009800000000000".toList = true := by decide

example : Processo.isValidStr "00000009700000000000".toList = false := by decide

example : Processo.format "12345678901234567890".toList =
    "1234567-89.0123.456.7890".toList := by decide

namespace Currency

/-- `currency.parse`: strip every non-digit (`replace of the \D class` is the
digit filter), substitute the string "0" when nothing is left (the JS
`|| fallback` on an empty string), read the result as an integer and divide by
100.  The division is modelled exactly in the rationals; JS float rounding
beyond 2^53 is never reached by the claims settled here. -/
def parse (value : Str) : ℚ :=
  (natOfDigits (if (onlyNumbers value).isEmpty then ['0'] else onlyNumbers value) : ℚ) /
    100

end Currency

example : Currency.parse "R$ 1.234,56".toList = 123456 / 100 := by
  have h :
      natOfDigits
        (if (onlyNumbers "R$ 1.234,56".toList).isEmpty then ['0']
         else onlyNumbers "R$ 1.234,56".toList) = 123456 := by decide
  unfold Currency.parse
  rw [h]
  norm_num

example : Currency.parse "abc".toList = 0 := by
  have h :
      natOfDigits
        (if (onlyNumbers "abc".toList).isEmpty then ['0']
         else onlyNumbers "abc".toList) = 0 := by decide
  unfold Currency.parse
  rw [h]
  norm_num

namespace Capitalize

def ACRONYMS : List Str :=
  ["cia".toList, "cnpj".toList, "cpf".toList, "ltda".toList, "me".toList, "rg".toList]

def PREPOSITIONS : List Str :=
  ["a".toList, "com".toList, "da".toList, "das".toList, "de".toList, "do".toList,
   "dos".toList, "e".toList, "em".toList, "na".toList, "nas".toList, "no".toList,
   "nos".toList, "o".toList, "por".toList, "sem".toList]

/-- JS `toLocaleLowerCase`, modelled as the ASCII character case map (it
agrees with JS on ASCII letters, and on every input used by the claims
settled here). -/
def toLowerStr (s : Str) : Str := s.map Char.toLower

/-- JS `toLocaleUpperCase`, modelled as the ASCII character case map. -/
def toUpperStr (s : Str) : Str := s.map Char.toUpper

/-- JS `value.split(s of one space)`: splits at every single space, keeping
empty pieces (the caller filters them away). -/
def splitSpaces : Str → Str → List Str
  | [], cur => [cur.reverse]
  | c :: rest, cur =>
    if c == ' ' then cur.reverse :: splitSpaces rest []
    else splitSpaces rest (c :: cur)

/-- `capitalize`: split on spaces, drop empty words, then per word — a word
after the first whose lowercased form is listed in `lowerCaseWords` is
rendered lowercase; a word whose UPPERCASED form is listed in
`upperCaseWords` is rendered uppercase (note the source compares the
uppercased word against the list); otherwise the first character of the
uppercased word is glued to the tail of the lowercased word.  Words are
rejoined with single spaces. -/
def capitalize (value : Str) (lowerCaseWords upperCaseWords : List Str) : Str :=
  let words := (splitSpaces value []).filter (fun w => !w.isEmpty)
  let mapped :=
    words.enum.map
      (fun p =>
        let lowerCaseWord := toLowerStr p.2
        if (p.1 != 0) && lowerCaseWords.contains lowerCaseWord then lowerCaseWord
        else
          let upperCaseWord := toUpperStr p.2
          if upperCaseWords.contains upperCaseWord then upperCaseWord
          else upperCaseWord.take 1 ++ lowerCaseWord.drop 1)
  List.intercalate [' '] mapped

/-- `capitalize` with its default word lists. -/
def capitalizeDefault (value : Str) : Str := capitalize value PREPOSITIONS ACRONYMS

end Capitalize

example : Capitalize.capitalizeDefault "joao da silva".toList =
    "Joao da Silva".toList := by decide

example : Capitalize.capitalizeDefault "DA silva".toList = "Da Silva".toList := by
  decide

example : Capitalize.capitalizeDefault "cpf".toList = "Cpf".toList := by decide

/-- A state record as built by `getStates`: the two-letter code and the
name.  The underlying `STATES`/`STATES_DATA` tables are external data
(modelled from the spec, 4.6 and 6: a static read-only table; the claims
settled here hold for every such table, so it is passed as an argument). -/
structure StateRec where
  code : Str
  name : Str
deriving DecidableEq

/-- String comparison used for the locale-aware sorts, modelled as code-point
order (it agrees with `localeCompare` on the ASCII inputs used here). -/
def strLe : Str → Str → Bool
  | [], _ => true
  | _ :: _, [] => false
  | a :: as, b :: bs => if a == b then strLe as bs else decide (a < b)

/-- `getStates`: rebuild a record per state (the source maps the code list
over the data table, creating fresh objects) and sort the fresh array by
name.  Only the fresh array is sorted, so the underlying table is not
touched; the table content is the `stateTable` argument. -/
def getStates (stateTable : List StateRec) : List StateRec :=
  List.insertionSort (fun a b => strLe a.name b.name = true)
    (stateTable.map (fun s => { code := s.code, name := s.name }))

/-- The city table: an association of state code to the stored (mutable, in
JS) array of city names; external data passed as an argument. -/
abbrev CityTable := List (Str × List Str)

/-- `getCities`, with the in-place JS `Array.prototype.sort` made explicit:
the result is returned together with the table as it stands after the call.
With a known state the source sorts the stored array itself
(`CITIES_DATA[code].sort(...)`), so the returned table carries the sorted
permutation at that code; with no argument the cities are first copied into a
fresh array by `concat`, and only the copy is sorted. -/
def getCities (stateTable : List StateRec) (citiesData : CityTable)
    (state : Option Str) : List Str × CityTable :=
  match state with
  | some s =>
    let states := getStates stateTable
    match states.find? (fun r => r.name == s || r.code == s) with
    | none => ([], citiesData)
    | some foundState =>
      let sorted :=
        List.insertionSort (fun a b => strLe a b = true)
          ((citiesData.lookup foundState.code).getD [])
      (sorted,
        citiesData.map (fun e => if e.1 == foundState.code then (e.1, sorted) else e))
  | none =>
    (List.insertionSort (fun a b => strLe a b = true)
      (citiesData.foldl (fun acc e => acc ++ e.2) []), citiesData)

example :
    (getCities [{ code := "SP".toList, name := "Sao Paulo".toList }]
      [("SP".toList, ["b".toList, "a".toList])] (some "SP".toList)).1 =
      ["a".toList, "b".toList] := by decide

example :
    (getCities [{ code := "SP".toList, name := "Sao Paulo".toList }]
      [("SP".toList, ["b".toList, "a".toList])] (some "XX".toList)).1 = [] := by decide

namespace Email

def MAX_RECIPIENT_LENGTH : Nat := 64

def MAX_DOMAIN_LENGTH : Nat := 253

def MAX_EMAIL_LENGTH : Nat := MAX_RECIPIENT_LENGTH + 1 + MAX_DOMAIN_LENGTH

/-- The class `[a-zA-Z0-9]` of the email regex. -/
def isAlnum (c : Char) : Bool := c.isAlpha || c.isDigit

/-- The leading special-character class of the email regex's local part
(exclamation to tilde, without the dot); the apostrophe, backtick, braces and
bar are written by code point. -/
def isRecipSpecial (c : Char) : Bool :=
  c == '!' || c == '#' || c == '$' || c == '%' || c == '&' || c == Char.ofNat 39 ||
    c == '*' || c == '+' || c == '-' || c == '/' || c == '=' || c == '?' ||
    c == '^' || c == '_' || c == Char.ofNat 96 || c == Char.ofNat 123 ||
    c == Char.ofNat 124 || c == Char.ofNat 125 || c == Char.ofNat 126

/-- The inner separator class of the local part: the special class plus the
dot. -/
def isRecipSep (c : Char) : Bool := isRecipSpecial c || c == '.'

/-- Greedy parse of `([a-zA-Z0-9][special.]{0,1})+`: consumes the maximal
prefix of iterations (an alphanumeric, optionally followed by one separator)
and returns it with the remainder; `sepAllowed` records whether the previous
character was alphanumeric.  Since `@` belongs to neither character class,
the maximal stop is the only one the regex engine can accept before the
mandatory `@`, so greedy scanning without backtracking is exact here. -/
def recipScan : Bool → Str → Str × Str
  | _, [] => ([], [])
  | sepAllowed, c :: rest =>
    if isAlnum c then
      let pr := recipScan true rest
      (c :: pr.1, pr.2)
    else if sepAllowed && isRecipSep c then
      let pr := recipScan false rest
      (c :: pr.1, pr.2)
    else ([], c :: rest)

/-- The local-part group of the email regex: an optional leading special
character followed by at least one `recipScan` iteration. -/
def recipMatch : Str → Option (Str × Str)
  | [] => none
  | c :: rest =>
    if isRecipSpecial c then
      let pr := recipScan false rest
      if pr.1.isEmpty then none else some (c :: pr.1, pr.2)
    else
      let pr := recipScan false (c :: rest)
      if pr.1.isEmpty then none else some (pr.1, pr.2)

/-- The class `[-.]` of the domain group. -/
def isDomSep (c : Char) : Bool := c == '-' || c == '.'

/-- Scanner for the tail of the domain language `([a-zA-Z0-9][-.]{0,1})+`:
`sepAllowed` records whether the previous character was alphanumeric. -/
def domScan : Bool → Str → Bool
  | _, [] => true
  | sepAllowed, c :: rest =>
    if isAlnum c then domScan true rest
    else if isDomSep c then sepAllowed && domScan false rest
    else false

/-- Full-match recognizer for the domain group `([a-zA-Z0-9][-.]{0,1})+`. -/
def domMatch : Str → Bool
  | [] => false
  | c :: rest => isAlnum c && domScan true rest

/-- Full-match recognizer for the final group `[.][a-zA-Z0-9]+` (anchored at
the end of the input). -/
def tldMatch : Str → Bool
  | c :: t => c == '.' && (!t.isEmpty && t.all isAlnum)
  | [] => false

/-- Backtracking split of the part after the `@` into domain and top-level
domain: the greedy engine accepts the longest domain prefix whose remainder
still matches the final dot-plus-alphanumerics group, so the largest viable
split point is the one captured. -/
def findSplit (r : Str) : Option (Str × Str) :=
  ((List.range (r.length + 1)).reverse.find?
      (fun k => domMatch (r.take k) && tldMatch (r.drop k))).map
    (fun k => (r.take k, r.drop k))

/-- `validEmailRegex.exec`, reduced to the three captured groups the source
destructures: local part, domain and top-level domain. -/
def exec (email : Str) : Option (Str × Str × Str) :=
  match recipMatch email with
  | none => none
  | some pr =>
    match pr.2 with
    | c :: r2 =>
      if c == '@' then
        match findSplit r2 with
        | none => none
        | some d => some (pr.1, d.1, d.2)
      else none
    | [] => none

/-- Body of `email.isValid` after the guard: total length bound, regex match,
then the local-part and domain-plus-tld length bounds. -/
def isValidStr (email : Str) : Bool :=
  if MAX_EMAIL_LENGTH < email.length then false
  else
    match exec email with
    | none => false
    | some g =>
      if MAX_RECIPIENT_LENGTH < g.1.length then false
      else if MAX_DOMAIN_LENGTH < g.2.1.length + g.2.2.length then false
      else true

/-- `email.isValid` including its falsy/non-string guard. -/
def isValid : JSInput → Bool
  | JSInput.str s => if s.isEmpty then false else isValidStr s
  | _ => false

end Email

example : Email.isValidStr "user@example.com".toList = true := by decide

example : Email.isValidStr "a@b.c".toList = true := by decide

example : Email.isValidStr "a@b".toList = false := by decide

example : Email.isValidStr "user@@example.com".toList = false := by decide

/-- Claim C1, counterexample: with all-zero random draws (and no state
argument, so the ninth digit is a ninth zero draw) `cpf.generate` returns the
reserved number 00000000000, which `cpf.isValid` rejects — so the generated
string does not always satisfy the validator. -/
theorem c1_counterexample :
    Cpf.generate (List.replicate 8 0) 0 = "00000000000".toList ∧
      Cpf.isValid (JSInput.str (Cpf.generate (List.replicate 8 0) 0)) = false := by
  decide

/-- Claim C2, failing evaluation: `getCities` with a known state sorts the
stored city array in place (`CITIES_DATA[code].sort`), so whenever the stored
list is not already in sorted order the table observed by later calls has
changed: with the city list of SP stored as b, a, the table after the call
holds a, b at SP and differs from the table before the call. -/
theorem c2_getCities_mutates_table :
    (getCities [{ code := "SP".toList, name := "Sao Paulo".toList }]
        [("SP".toList, ["b".toList, "a".toList])] (some "SP".toList)).2 ≠
      [("SP".toList, ["b".toList, "a".toList])] := by decide

/-- Claim C3, failing evaluation: the judicial-process formatter decides
separator suppression against the raw input's length instead of the digit
string's, so for the input 123-4567 — whose seven digits end exactly at the
configured hyphen index 6 — the hyphen is not suppressed and the output
carries a trailing separator. -/
theorem c3_processo_format_trailing_separator :
    onlyNumbers "123-4567".toList = "1234567".toList ∧
      Processo.format "123-4567".toList = "1234567-".toList := by decide

/-- Claim C7, failing evaluation: `capitalize` compares the UPPERCASED word
against the `upperCaseWords` list, whose default entries (the acronyms) are
lowercase, so an acronym in the input is never matched and is rendered
capitalized instead of fully uppercase. -/
theorem c7_capitalize_default_acronym :
    Capitalize.capitalizeDefault "cpf".toList = "Cpf".toList ∧
      Capitalize.capitalizeDefault "cpf".toList ≠ "CPF".toList := by decide

lemma currency_parse_of_no_digits (s : Str) (h : onlyNumbers s = []) :
    Currency.parse s = 0 := by
  have h0 : natOfDigits ['0'] = 0 := by decide
  unfold Currency.parse
  rw [h]
  simp [h0]

/-- Claim C9: no public operation signals an error (every embedded operation
here is a total function); absent or non-string input makes every validator
return false, `currency.parse` of a string without digits (in particular the
empty string) returns 0, and `getCities` of a state matching no known state
returns the empty list and leaves the table untouched. -/
theorem c9_no_throw_negative_results :
    (∀ i : JSInput, (i = JSInput.absent ∨ i = JSInput.nonString) →
        Cpf.isValid i = false ∧ Cnpj.isValid i = false ∧ Cep.isValid i = false ∧
          (∀ areaCodes : List Nat, Phone.isValid areaCodes i = false) ∧
          Pis.isValid i = false ∧ Boleto.isValid i = false ∧
          Processo.isValid i = false ∧ Email.isValid i = false) ∧
      (Currency.parse [] = 0 ∧
        ∀ s : Str, (∀ c ∈ s, ¬(Char.isDigit c = true)) → Currency.parse s = 0) ∧
      (∀ (stateTable : List StateRec) (citiesData : CityTable) (st : Str),
        (∀ r ∈ stateTable, ¬(r.name = st) ∧ ¬(r.code = st)) →
        getCities stateTable citiesData (some st) = ([], citiesData)) := by
  refine ⟨?_, ⟨?_, ?_⟩, ?_⟩
  · intro i hi
    rcases hi with h | h <;> subst h <;>
      exact ⟨rfl, rfl, rfl, fun _ => rfl, rfl, rfl, rfl, rfl⟩
  · exact currency_parse_of_no_digits [] rfl
  · intro s hs
    refine currency_parse_of_no_digits s ?_
    simpa [onlyNumbers, List.filter_eq_nil_iff] using hs
  · intro stateTable citiesData st h
    have hfind :
        (getStates stateTable).find? (fun r => r.name == st || r.code == st) = none := by
      rw [List.find?_eq_none]
      intro r hr
      have hmem : r ∈ stateTable := by
        have hperm := List.perm_insertionSort
          (fun a b : StateRec => strLe a.name b.name = true)
          (stateTable.map (fun s => { code := s.code, name := s.name }))
        have : r ∈ stateTable.map (fun s : StateRec => { code := s.code, name := s.name }) :=
          hperm.mem_iff.mp hr
        simpa using this
      have hne := h r hmem
      simp [hne.1, hne.2]
    simp [getCities, hfind]

/-- Witness for C9 at concrete inputs. -/
theorem c9_witness :
    Cpf.isValid JSInput.absent = false ∧ Email.isValid JSInput.nonString = false ∧
      Currency.parse "R$".toList = 0 ∧
      getCities [{ code := "SP".toList, name := "Sao Paulo".toList }]
          [("SP".toList, ["b".toList, "a".toList])] (some "XX".toList) =
        ([], [("SP".toList, ["b".toList, "a".toList])]) := by
  have h := c9_no_throw_negative_results
  exact ⟨(h.1 JSInput.absent (Or.inl rfl)).1,
    (h.1 JSInput.nonString (Or.inr rfl)).2.2.2.2.2.2.2,
    h.2.1.2 "R$".toList (by decide),
    h.2.2 [{ code := "SP".toList, name := "Sao Paulo".toList }]
      [("SP".toList, ["b".toList, "a".toList])] "XX".toList (by decide)⟩

lemma natOfDigits_fold_acc (b : Str) : ∀ acc : Nat,
    b.foldl (fun acc c => 10 * acc + charToDigit c) acc =
      acc * 10 ^ b.length + natOfDigits b := by
  induction b with
  | nil => intro acc; simp [natOfDigits]
  | cons c t ih =>
    intro acc
    rw [List.foldl_cons, ih (10 * acc + charToDigit c)]
    have h2 : natOfDigits (c :: t) = charToDigit c * 10 ^ t.length + natOfDigits t := by
      show List.foldl _ 0 (c :: t) = _
      rw [List.foldl_cons, ih (10 * 0 + charToDigit c)]
      ring
    rw [h2, List.length_cons]
    ring

lemma natOfDigits_cons (c : Char) (t : Str) :
    natOfDigits (c :: t) = charToDigit c * 10 ^ t.length + natOfDigits t := by
  show List.foldl _ 0 (c :: t) = _
  rw [List.foldl_cons, natOfDigits_fold_acc]
  ring

lemma natOfDigits_append (a b : Str) :
    natOfDigits (a ++ b) = natOfDigits a * 10 ^ b.length + natOfDigits b := by
  show List.foldl _ 0 (a ++ b) = _
  rw [List.foldl_append, natOfDigits_fold_acc]
  rfl

lemma enumFrom_powsum (k : Nat) : ∀ (l : Str) (j a : Nat), j + l.length = k + 1 →
    (List.enumFrom j l).foldl (fun acc p => acc + charToDigit p.2 * 10 ^ (k - p.1)) a =
      a + natOfDigits l := by
  intro l
  induction l with
  | nil => intro j a _; simp [natOfDigits]
  | cons c t ih =>
    intro j a h
    have hjt : j + 1 + t.length = k + 1 := by
      simp only [List.length_cons] at h
      omega
    have hkj : k - j = t.length := by
      simp only [List.length_cons] at h
      omega
    rw [List.enumFrom_cons, List.foldl_cons, ih (j + 1) _ hjt, natOfDigits_cons, hkj]
    ring

lemma enum_powsum (k : Nat) (l : Str) (h : l.length = k + 1) :
    l.enum.foldl (fun acc p => acc + charToDigit p.2 * 10 ^ (k - p.1)) 0 = natOfDigits l := by
  have hh := enumFrom_powsum k l 0 0 (by simpa using h)
  simpa [List.enum] using hh

/-- Claim C5: for every 20-digit judicial process string, `verifyDigit` holds
exactly when the two check digits at positions 7-8 equal
`98 - ((N * 100) % 97)`, `N` being the 18-digit number formed by the
remaining digits in order — i.e. the two-step running-remainder computation
of the source agrees with the direct big-integer modulo. -/
theorem c5_verifyDigit_iff_mod97 (s : Str) (hlen : s.length = 20)
    (hdig : ∀ c ∈ s, Char.isDigit c = true) :
    Processo.verifyDigit s = true ↔
      natOfDigits ((s.drop 7).take 2) =
        98 - natOfDigits (s.take 7 ++ s.drop 9) * 100 % 97 := by
  have ht : ((s.take 7 ++ s.drop 9).take 11).length = 11 := by
    simp [hlen]
  have hd : ((s.take 7 ++ s.drop 9).drop 11).length = 7 := by
    simp [hlen]
  have h1 := enum_powsum 10 ((s.take 7 ++ s.drop 9).take 11) ht
  have h2 := enum_powsum 6 ((s.take 7 ++ s.drop 9).drop 11) hd
  have hsplit :
      natOfDigits (s.take 7 ++ s.drop 9) =
        natOfDigits ((s.take 7 ++ s.drop 9).take 11) * 10 ^ 7 +
          natOfDigits ((s.take 7 ++ s.drop 9).drop 11) := by
    conv_lhs => rw [← List.take_append_drop 11 (s.take 7 ++ s.drop 9)]
    rw [natOfDigits_append, hd]
  have hmod :
      (natOfDigits ((s.take 7 ++ s.drop 9).take 11) % 97 * 1000000000 +
          natOfDigits ((s.take 7 ++ s.drop 9).drop 11) * 100) % 97 =
        natOfDigits (s.take 7 ++ s.drop 9) * 100 % 97 := by
    have h9 :
        natOfDigits ((s.take 7 ++ s.drop 9).take 11) % 97 * 1000000000 +
            natOfDigits ((s.take 7 ++ s.drop 9).drop 11) * 100 ≡
          natOfDigits ((s.take 7 ++ s.drop 9).take 11) * 1000000000 +
            natOfDigits ((s.take 7 ++ s.drop 9).drop 11) * 100 [MOD 97] :=
      ((Nat.mod_modEq _ 97).mul_right 1000000000).add_right _
    rw [h9, hsplit]
    ring_nf
  simp only [Processo.verifyDigit, Processo.CHECK_DIGIT_START_POSITION,
    Processo.CHECK_DIGIT_LENGTH, Processo.MOD_97_10_QUOCIENT, Processo.MOD_97_10_SUM,
    h1, h2, hmod, beq_iff_eq]
  exact eq_comm

/-- Witness for C5: a concrete 20-digit string whose check digits satisfy the
mod 97-10 rule. -/
theorem c5_witness : Processo.verifyDigit "00000009800000000000".toList = true :=
  (c5_verifyDigit_iff_mod97 "00000009800000000000".toList (by decide)
    (by decide)).mpr (by decide)

lemma charToDigit_le_nine (c : Char) (h : c.isDigit = true) : charToDigit c ≤ 9 := by
  have h2 : c.toNat ≤ 57 := by
    simp [Char.isDigit] at h
    exact h.2
  unfold charToDigit
  omega

lemma digit_not_pis_sep (c : Char) (h : c.isDigit = true) :
    ([' ', '(', ')', '.', ',', '*', '-'].contains c) = false := by
  by_contra hc
  rw [Bool.not_eq_false] at hc
  have hmem := List.mem_of_elem_eq_true hc
  fin_cases hmem <;> exact absurd h (by decide)

lemma removeSeparators_of_digits (s : Str) (h : ∀ c ∈ s, Char.isDigit c = true) :
    Pis.removeSeparators s = s := by
  unfold Pis.removeSeparators
  rw [List.filter_eq_self]
  intro c hc
  rw [digit_not_pis_sep c (h c hc)]
  rfl

/-- Claim C6: for an 11-digit, all-numeric, non-reserved PIS string, when the
calculated digit `11 - (S % 11)` over the first ten digits is 10 or 11 the
validator accepts exactly the strings whose eleventh digit is 0, and
otherwise exactly those whose eleventh digit equals the calculated digit. -/
theorem c6_pis_checksum_cases (s : Str) (hlen : s.length = 11)
    (hdig : ∀ c ∈ s, Char.isDigit c = true)
    (hres : Pis.isReservedNumber s = false) :
    ((11 - generateChecksumW (s.take 10) Pis.WEIGHTS % 11 = 10 ∨
        11 - generateChecksumW (s.take 10) Pis.WEIGHTS % 11 = 11) →
      (Pis.isValidStr s = true ↔ natOfDigits (charAt s 10) = 0)) ∧
      (¬(11 - generateChecksumW (s.take 10) Pis.WEIGHTS % 11 = 10 ∨
          11 - generateChecksumW (s.take 10) Pis.WEIGHTS % 11 = 11) →
        (Pis.isValidStr s = true ↔
          natOfDigits (charAt s 10) =
            11 - generateChecksumW (s.take 10) Pis.WEIGHTS % 11)) := by
  have hrs := removeSeparators_of_digits s hdig
  have h10 : 10 < s.length := by omega
  have hvd_le : natOfDigits (charAt s 10) ≤ 9 := by
    unfold charAt
    rw [List.get?_eq_get h10]
    have hcm : s.get ⟨10, h10⟩ ∈ s := s.get_mem 10 h10
    have hdc := charToDigit_le_nine _ (hdig _ hcm)
    simpa [natOfDigits] using hdc
  have hlen' : Pis.isValidLength s = true := by simp [Pis.isValidLength, Pis.LENGTH, hlen]
  have honly : Pis.hasOnlyNumbers s = true := by
    unfold Pis.hasOnlyNumbers
    have hne : s.isEmpty = false := by
      cases s
      · simp at hlen
      · rfl
    rw [hne]
    simpa [List.all_eq_true] using hdig
  have hbody :
      Pis.isValidStr s =
        (decide (11 - generateChecksumW (s.take 10) Pis.WEIGHTS % 11 =
            natOfDigits (charAt s 10)) ||
          (decide (11 - generateChecksumW (s.take 10) Pis.WEIGHTS % 11 = 10) &&
            decide (natOfDigits (charAt s 10) = 0)) ||
          (decide (11 - generateChecksumW (s.take 10) Pis.WEIGHTS % 11 = 11) &&
            decide (natOfDigits (charAt s 10) = 0))) := by
    simp only [Pis.isValidStr, hrs, hlen', hres, honly, hlen]
    norm_num [Pis.LENGTH]
  rw [hbody]
  simp only [Bool.or_eq_true, Bool.and_eq_true, decide_eq_true_eq]
  constructor
  · intro hcase
    omega
  · intro hcase
    omega

/-- Witness for C6: the documented sample PIS, whose calculated digit is 7. -/
theorem c6_witness : Pis.isValidStr "12056874107".toList = true :=
  ((c6_pis_checksum_cases "12056874107".toList (by decide) (by decide)
      (by decide)).2 (by decide)).mpr (by decide)

/-- Claim C8: `phone.isValid` accepts only canonical digit counts 10 and 11;
with 10 digits the digit after the two-digit area code must be 2-5 (landline
rules), with 11 digits it must be 6-9 (mobile rules); this holds for every
area-code table. -/
theorem c8_phone_length_first_digit (areaCodes : List Nat) (s : Str)
    (h : Phone.isValidStr areaCodes s = true) :
    ((onlyNumbers s).length = 10 ∨ (onlyNumbers s).length = 11) ∧
      ((onlyNumbers s).length = 10 →
        natOfDigits (charAt (onlyNumbers s) 2) ∈ ([2, 3, 4, 5] : List Nat)) ∧
      ((onlyNumbers s).length = 11 →
        natOfDigits (charAt (onlyNumbers s) 2) ∈ ([6, 7, 8, 9] : List Nat)) := by
  unfold Phone.isValidStr at h
  simp only [Bool.and_eq_true] at h
  obtain ⟨⟨hl, hf⟩, _⟩ := h
  have hlen : (onlyNumbers s).length = 10 ∨ (onlyNumbers s).length = 11 := by
    unfold Phone.isValidLength Phone.isValidLandlinePhoneLength
      Phone.isValidMobilePhoneLength Phone.PHONE_MIN_LENGTH Phone.PHONE_MAX_LENGTH at hl
    simp only [Bool.or_eq_true, decide_eq_true_eq, beq_iff_eq] at hl
    omega
  refine ⟨hlen, ?_, ?_⟩
  · intro h10
    unfold Phone.isValidFirstNumber Phone.PHONE_MIN_LENGTH at hf
    rw [h10] at hf
    norm_num at hf
    unfold Phone.isValidLandlinePhoneFirstNumber Phone.LANDLINE_VALID_FIRST_NUMBERS at hf
    exact List.mem_of_elem_eq_true hf
  · intro h11
    unfold Phone.isValidFirstNumber Phone.PHONE_MIN_LENGTH at hf
    rw [h11] at hf
    norm_num at hf
    unfold Phone.isValidMobilePhoneFirstNumber Phone.MOBILE_VALID_FIRST_NUMBERS at hf
    exact List.mem_of_elem_eq_true hf

/-- Witness for C8 at a concrete valid mobile number. -/
theorem c8_witness :
    (onlyNumbers "11987654321".toList).length = 10 ∨
      (onlyNumbers "11987654321".toList).length = 11 :=
  (c8_phone_length_first_digit [11] "11987654321".toList (by decide)).1

lemma onlyNumbers_of_digits (s : Str) (h : ∀ c ∈ s, Char.isDigit c = true) :
    onlyNumbers s = s := by
  unfold onlyNumbers
  rw [List.filter_eq_self]
  exact h

lemma boleto_mod11_fold (l : Str) : ∀ (j a w : Nat), w = 2 + j % 8 →
    (l.foldl
        (fun st digit =>
          (st.1 + charToDigit digit * st.2,
            if st.2 < Boleto.MOD_11_WEIGHTS_END then st.2 + 1
            else Boleto.MOD_11_WEIGHTS_INITIAL))
        (a, w)).1 =
      (List.enumFrom j l).foldl (fun acc p => acc + charToDigit p.2 * (2 + p.1 % 8)) a := by
  induction l with
  | nil => intro j a w _; rfl
  | cons c t ih =>
    intro j a w hw
    subst hw
    have hw2 :
        (if 2 + j % 8 < Boleto.MOD_11_WEIGHTS_END then 2 + j % 8 + 1
          else Boleto.MOD_11_WEIGHTS_INITIAL) = 2 + (j + 1) % 8 := by
      unfold Boleto.MOD_11_WEIGHTS_END Boleto.MOD_11_WEIGHTS_INITIAL
      rcases Nat.lt_or_ge (j % 8) 7 with h7 | h7
      · rw [if_pos (by omega)]
        omega
      · rw [if_neg (by omega)]
        omega
    rw [List.foldl_cons, List.enumFrom_cons, List.foldl_cons]
    show (t.foldl _ (a + charToDigit c * (2 + j % 8),
      if 2 + j % 8 < Boleto.MOD_11_WEIGHTS_END then 2 + j % 8 + 1
      else Boleto.MOD_11_WEIGHTS_INITIAL)).1 = _
    rw [hw2]
    exact ih (j + 1) _ _ rfl

/-- The threaded-weight fold of `Boleto.mod11` equals the closed cyclic-weight
form: the digit at distance `i` from the right is weighted `2 + i % 8`. -/
lemma boleto_mod11_closed (l : Str) :
    Boleto.mod11 l =
      (if l.reverse.enum.foldl (fun acc p => acc + charToDigit p.2 * (2 + p.1 % 8)) 0 % 11 ≤ 1
        then 1
        else 11 -
          l.reverse.enum.foldl (fun acc p => acc + charToDigit p.2 * (2 + p.1 % 8)) 0 % 11) := by
  simp only [Boleto.mod11]
  rw [boleto_mod11_fold l.reverse 0 0 Boleto.MOD_11_WEIGHTS_INITIAL (by rfl)]
  rw [show List.enumFrom 0 l.reverse = l.reverse.enum from rfl]
  set M := l.reverse.enum.foldl (fun acc p => acc + charToDigit p.2 * (2 + p.1 % 8)) 0 % 11
    with hM
  simp only [Bool.or_eq_true, beq_iff_eq]
  rcases le_or_lt M 1 with h1 | h1
  · rw [if_pos (by omega), if_pos h1]
  · rw [if_neg (by omega), if_neg (by omega)]

/-- Claim C10: for a 47-digit digitable line passing the three mod-10 partial
checks, `boleto.isValid` holds exactly when the digit at position 4 of the
rearranged 4-field line equals the mod-11 value of the remaining digits,
weighted cyclically 2 through 9 from the rightmost digit, with remainders 0
and 1 both mapped to check digit 1. -/
theorem c10_boleto_check_digit (s : Str) (hlen : s.length = 47)
    (hdig : ∀ c ∈ s, Char.isDigit c = true)
    (hpart : Boleto.isValidPartials s = true) :
    Boleto.isValidStr s = true ↔
      (∃ c, (Boleto.parse s).get? 4 = some c ∧
        charToDigit c =
          (if ((Boleto.parse s).take 4 ++ (Boleto.parse s).drop 5).reverse.enum.foldl
                (fun acc p => acc + charToDigit p.2 * (2 + p.1 % 8)) 0 % 11 ≤ 1 then 1
            else 11 -
              ((Boleto.parse s).take 4 ++ (Boleto.parse s).drop 5).reverse.enum.foldl
                (fun acc p => acc + charToDigit p.2 * (2 + p.1 % 8)) 0 % 11)) := by
  have hon : onlyNumbers s = s := onlyNumbers_of_digits s hdig
  have hl : Boleto.isValidLength s = true := by
    simp [Boleto.isValidLength, Boleto.LENGTH, hlen]
  have hstr : Boleto.isValidStr s = Boleto.isValidCheckDigit (Boleto.parse s) := by
    simp [Boleto.isValidStr, hon, hl, hpart]
  have hplen : (Boleto.parse s).length = 44 := by
    simp [Boleto.parse, Boleto.CONVERT_POSITIONS, substring, hlen]
  have hp4 : 4 < (Boleto.parse s).length := by omega
  have h4 : (Boleto.parse s).get? 4 = some ((Boleto.parse s).get ⟨4, hp4⟩) :=
    List.get?_eq_get hp4
  rw [hstr]
  simp only [Boleto.isValidCheckDigit, Boleto.CHECK_DIGIT_POSITION]
  rw [show (4 : Nat) + 1 = 5 from rfl]
  rw [boleto_mod11_closed]
  rw [h4]
  simp only [beq_iff_eq, Option.some.injEq]
  constructor
  · intro h
    exact ⟨(Boleto.parse s).get ⟨4, hp4⟩, rfl, h⟩
  · rintro ⟨c, rfl, hc2⟩
    exact hc2

/-- Witness for C10: a concrete 47-digit line (all zeros, with the general
check digit 1 at position 32) that passes the partial checks and the mod-11
rule. -/
theorem c10_witness :
    Boleto.isValidStr "00000000000000000000000000000000100000000000000".toList = true :=
  (c10_boleto_check_digit "00000000000000000000000000000000100000000000000".toList
      (by decide) (by decide) (by decide)).mpr ⟨'1', by decide, by decide⟩

lemma fold_filter_one_sep (w : Str) (hys : List Nat) (c2 : Char)
    (hc2 : c2.isDigit = false) :
    ∀ (l : List (Nat × Char)) (acc : Str),
      List.filter Char.isDigit
          (l.foldl
            (fun acc p =>
              if !(isLastChar p.1 w) then
                if hys.contains p.1 then acc ++ [p.2] ++ [c2]
                else acc ++ [p.2]
              else acc ++ [p.2])
            acc) =
        List.filter Char.isDigit acc ++ List.filter Char.isDigit (l.map Prod.snd) := by
  intro l
  induction l with
  | nil => intro acc; simp
  | cons p t ih =>
    intro acc
    rw [List.foldl_cons, ih, List.map_cons]
    by_cases h1 : isLastChar p.1 w = true <;>
      by_cases h2 : p.1 ∈ hys <;>
      by_cases hp : p.2.isDigit = true <;>
      simp [h1, h2, hp, hc2, List.filter_append, List.filter_cons, List.append_assoc]

lemma fold_filter_two_seps (w : Str) (dots hys : List Nat) (c1 c2 : Char)
    (hc1 : c1.isDigit = false) (hc2 : c2.isDigit = false) :
    ∀ (l : List (Nat × Char)) (acc : Str),
      List.filter Char.isDigit
          (l.foldl
            (fun acc p =>
              if !(isLastChar p.1 w) then
                if dots.contains p.1 then acc ++ [p.2] ++ [c1]
                else if hys.contains p.1 then acc ++ [p.2] ++ [c2]
                else acc ++ [p.2]
              else acc ++ [p.2])
            acc) =
        List.filter Char.isDigit acc ++ List.filter Char.isDigit (l.map Prod.snd) := by
  intro l
  induction l with
  | nil => intro acc; simp
  | cons p t ih =>
    intro acc
    rw [List.foldl_cons, ih, List.map_cons]
    by_cases h1 : isLastChar p.1 w = true <;>
      by_cases h2 : p.1 ∈ dots <;>
      by_cases h3 : p.1 ∈ hys <;>
      by_cases hp : p.2.isDigit = true <;>
      simp [h1, h2, h3, hp, hc1, hc2, List.filter_append, List.filter_cons,
        List.append_assoc]

lemma fold_filter_three_seps (w : Str) (dots slashes hys : List Nat) (c1 c2 c3 : Char)
    (hc1 : c1.isDigit = false) (hc2 : c2.isDigit = false) (hc3 : c3.isDigit = false) :
    ∀ (l : List (Nat × Char)) (acc : Str),
      List.filter Char.isDigit
          (l.foldl
            (fun acc p =>
              if !(isLastChar p.1 w) then
                if dots.contains p.1 then acc ++ [p.2] ++ [c1]
                else if slashes.contains p.1 then acc ++ [p.2] ++ [c2]
                else if hys.contains p.1 then acc ++ [p.2] ++ [c3]
                else acc ++ [p.2]
              else acc ++ [p.2])
            acc) =
        List.filter Char.isDigit acc ++ List.filter Char.isDigit (l.map Prod.snd) := by
  intro l
  induction l with
  | nil => intro acc; simp
  | cons p t ih =>
    intro acc
    rw [List.foldl_cons, ih, List.map_cons]
    by_cases h1 : isLastChar p.1 w = true <;>
      by_cases h2 : p.1 ∈ dots <;>
      by_cases h3 : p.1 ∈ slashes <;>
      by_cases h4 : p.1 ∈ hys <;>
      by_cases hp : p.2.isDigit = true <;>
      simp [h1, h2, h3, h4, hp, hc1, hc2, hc3, List.filter_append, List.filter_cons,
        List.append_assoc]

lemma cpf_format_roundtrip (v : Str) (pad : Bool) :
    onlyNumbers (Cpf.format v pad) =
      (if pad then padStart (onlyNumbers v) Cpf.LENGTH '0' else onlyNumbers v).take
        Cpf.LENGTH := by
  dsimp only [Cpf.format, onlyNumbers]
  rw [fold_filter_two_seps
      (if pad then padStart (List.filter Char.isDigit v) Cpf.LENGTH '0'
        else List.filter Char.isDigit v)
      Cpf.DOT_INDEXES Cpf.HYPHEN_INDEXES '.' '-' (by decide) (by decide)]
  rw [List.enum_map_snd]
  have hD : ∀ c ∈ (if pad then padStart (List.filter Char.isDigit v) Cpf.LENGTH '0'
      else List.filter Char.isDigit v), c.isDigit = true := by
    intro c hc
    split at hc
    · unfold padStart at hc
      rcases List.mem_append.mp hc with h | h
      · rw [List.eq_of_mem_replicate h]
        decide
      · exact List.of_mem_filter h
    · exact List.of_mem_filter hc
  have hall : ∀ c ∈ (if pad then padStart (List.filter Char.isDigit v) Cpf.LENGTH '0'
      else List.filter Char.isDigit v).take Cpf.LENGTH, c.isDigit = true :=
    fun c hc => hD c (List.mem_of_mem_take hc)
  rw [List.filter_eq_self.mpr hall]
  simp

lemma cnpj_format_roundtrip (v : Str) (pad : Bool) :
    onlyNumbers (Cnpj.format v pad) =
      (if pad then padStart (onlyNumbers v) Cnpj.LENGTH '0' else onlyNumbers v).take
        Cnpj.LENGTH := by
  dsimp only [Cnpj.format, onlyNumbers]
  rw [fold_filter_three_seps
      (if pad then padStart (List.filter Char.isDigit v) Cnpj.LENGTH '0'
        else List.filter Char.isDigit v)
      Cnpj.DOT_INDEXES Cnpj.SLASH_INDEXES Cnpj.HYPHEN_INDEXES '.' '/' '-'
      (by decide) (by decide) (by decide)]
  rw [List.enum_map_snd]
  have hD : ∀ c ∈ (if pad then padStart (List.filter Char.isDigit v) Cnpj.LENGTH '0'
      else List.filter Char.isDigit v), c.isDigit = true := by
    intro c hc
    split at hc
    · unfold padStart at hc
      rcases List.mem_append.mp hc with h | h
      · rw [List.eq_of_mem_replicate h]
        decide
      · exact List.of_mem_filter h
    · exact List.of_mem_filter hc
  have hall : ∀ c ∈ (if pad then padStart (List.filter Char.isDigit v) Cnpj.LENGTH '0'
      else List.filter Char.isDigit v).take Cnpj.LENGTH, c.isDigit = true :=
    fun c hc => hD c (List.mem_of_mem_take hc)
  rw [List.filter_eq_self.mpr hall]
  simp

lemma cep_format_roundtrip (v : Str) :
    onlyNumbers (Cep.format v) = (onlyNumbers v).take Cep.LENGTH := by
  dsimp only [Cep.format, onlyNumbers]
  rw [fold_filter_one_sep (List.filter Char.isDigit v) Cep.HYPHEN_INDEXES '-' (by decide)]
  rw [List.enum_map_snd]
  have hall : ∀ c ∈ (List.filter Char.isDigit v).take Cep.LENGTH, c.isDigit = true :=
    fun c hc => List.of_mem_filter (List.mem_of_mem_take hc)
  rw [List.filter_eq_self.mpr hall]
  simp

lemma boleto_format_roundtrip (v : Str) :
    onlyNumbers (Boleto.format v) = (onlyNumbers v).take Boleto.LENGTH := by
  dsimp only [Boleto.format, onlyNumbers]
  rw [fold_filter_two_seps (List.filter Char.isDigit v) Boleto.DOT_INDEXES
    Boleto.SPACE_INDEXES '.' ' ' (by decide) (by decide)]
  rw [List.enum_map_snd]
  have hall : ∀ c ∈ (List.filter Char.isDigit v).take Boleto.LENGTH, c.isDigit = true :=
    fun c hc => List.of_mem_filter (List.mem_of_mem_take hc)
  rw [List.filter_eq_self.mpr hall]
  simp

lemma processo_format_roundtrip (v : Str) :
    onlyNumbers (Processo.format v) = (onlyNumbers v).take Processo.LENGTH := by
  dsimp only [Processo.format, onlyNumbers]
  rw [fold_filter_two_seps v Processo.DOT_INDEXES Processo.HYPHEN_INDEXES '.' '-'
    (by decide) (by decide)]
  rw [List.enum_map_snd]
  have hall : ∀ c ∈ (List.filter Char.isDigit v).take Processo.LENGTH, c.isDigit = true :=
    fun c hc => List.of_mem_filter (List.mem_of_mem_take hc)
  rw [List.filter_eq_self.mpr hall]
  simp

/-- Claim C4: for every input (and pad option where supported), stripping the
non-digit characters from the output of each positional formatter returns
exactly the input's digit sequence after optional zero left-padding and
truncation to the identifier's fixed length. -/
theorem c4_format_digits_roundtrip :
    (∀ (v : Str) (pad : Bool),
        onlyNumbers (Cpf.format v pad) =
          (if pad then padStart (onlyNumbers v) Cpf.LENGTH '0' else onlyNumbers v).take
            Cpf.LENGTH) ∧
      (∀ (v : Str) (pad : Bool),
        onlyNumbers (Cnpj.format v pad) =
          (if pad then padStart (onlyNumbers v) Cnpj.LENGTH '0' else onlyNumbers v).take
            Cnpj.LENGTH) ∧
      (∀ v : Str, onlyNumbers (Cep.format v) = (onlyNumbers v).take Cep.LENGTH) ∧
      (∀ v : Str, onlyNumbers (Boleto.format v) = (onlyNumbers v).take Boleto.LENGTH) ∧
      (∀ v : Str,
        onlyNumbers (Processo.format v) = (onlyNumbers v).take Processo.LENGTH) :=
  ⟨cpf_format_roundtrip, cnpj_format_roundtrip, cep_format_roundtrip,
    boleto_format_roundtrip, processo_format_roundtrip⟩

lemma digitChar_isDigit (d : Nat) (h : d < 10) : (digitChar d).isDigit = true := by
  interval_cases d <;> decide

lemma charToDigit_digitChar (d : Nat) (h : d < 10) : charToDigit (digitChar d) = d := by
  interval_cases d <;> decide

lemma matchDigits_append (n : Nat) : ∀ (a b : Str), a.length = n →
    (∀ c ∈ a, c.isDigit = true) → matchDigits n (a ++ b) = some b := by
  induction n with
  | zero =>
    intro a b ha _
    rw [List.length_eq_zero] at ha
    subst ha
    rfl
  | succ n ih =>
    intro a b ha hd
    cases a with
    | nil => simp at ha
    | cons c t =>
      rw [List.cons_append]
      simp only [matchDigits, hd c (List.mem_cons_self c t), if_true]
      exact ih t b (by simpa using ha) (fun x hx => hd x (List.mem_cons_of_mem c hx))

lemma matchDigits_drop (s : Str) (hd : ∀ c ∈ s, c.isDigit = true) (k n : Nat)
    (hkn : k + n ≤ s.length) : matchDigits n (s.drop k) = some (s.drop (k + n)) := by
  have hsplit : s.drop k = (s.drop k).take n ++ (s.drop k).drop n :=
    (List.take_append_drop n (s.drop k)).symm
  rw [hsplit, matchDigits_append n ((s.drop k).take n) ((s.drop k).drop n)
    (by simp; omega)
    (fun c hc => hd c (List.drop_subset k s (List.mem_of_mem_take hc))),
    List.drop_drop]

lemma skipOpt_of_digits (ch : Char) (hch : ch.isDigit = false) (s : Str)
    (hs : ∀ c ∈ s, c.isDigit = true) : skipOpt ch s = s := by
  cases s with
  | nil => rfl
  | cons c t =>
    have hne : (c == ch) = false := by
      rw [beq_eq_false_iff_ne]
      intro he
      rw [← he] at hch
      rw [hs c (List.mem_cons_self c t)] at hch
      cases hch
    simp only [skipOpt, hne]
    rfl

lemma cpf_isValidFormat_of_digits (s : Str) (hlen : s.length = 11)
    (hd : ∀ c ∈ s, c.isDigit = true) : Cpf.isValidFormat s = true := by
  have e1 : matchDigits 3 s = some (s.drop 3) := by
    have h := matchDigits_drop s hd 0 3 (by omega)
    simpa using h
  have k1 : skipOpt '.' (s.drop 3) = s.drop 3 :=
    skipOpt_of_digits '.' (by decide) _ (fun c hc => hd c (List.drop_subset 3 s hc))
  have e2 : matchDigits 3 (s.drop 3) = some (s.drop 6) := by
    have h := matchDigits_drop s hd 3 3 (by omega)
    simpa using h
  have k2 : skipOpt '.' (s.drop 6) = s.drop 6 :=
    skipOpt_of_digits '.' (by decide) _ (fun c hc => hd c (List.drop_subset 6 s hc))
  have e3 : matchDigits 3 (s.drop 6) = some (s.drop 9) := by
    have h := matchDigits_drop s hd 6 3 (by omega)
    simpa using h
  have k3 : skipOpt '-' (s.drop 9) = s.drop 9 :=
    skipOpt_of_digits '-' (by decide) _ (fun c hc => hd c (List.drop_subset 9 s hc))
  have e4 : matchDigits 2 (s.drop 9) = some (s.drop 11) := by
    have h := matchDigits_drop s hd 9 2 (by omega)
    simpa using h
  have e5 : s.drop 11 = [] := List.drop_eq_nil_of_le (by omega)
  simp only [Cpf.isValidFormat, e1, k1, e2, k2, e3, k3, e4, e5]
  rfl

lemma cnpj_isValidFormat_of_digits (s : Str) (hlen : s.length = 14)
    (hd : ∀ c ∈ s, c.isDigit = true) : Cnpj.isValidFormat s = true := by
  have e1 : matchDigits 2 s = some (s.drop 2) := by
    have h := matchDigits_drop s hd 0 2 (by omega)
    simpa using h
  have k1 : skipOpt '.' (s.drop 2) = s.drop 2 :=
    skipOpt_of_digits '.' (by decide) _ (fun c hc => hd c (List.drop_subset 2 s hc))
  have e2 : matchDigits 3 (s.drop 2) = some (s.drop 5) := by
    have h := matchDigits_drop s hd 2 3 (by omega)
    simpa using h
  have k2 : skipOpt '.' (s.drop 5) = s.drop 5 :=
    skipOpt_of_digits '.' (by decide) _ (fun c hc => hd c (List.drop_subset 5 s hc))
  have e3 : matchDigits 3 (s.drop 5) = some (s.drop 8) := by
    have h := matchDigits_drop s hd 5 3 (by omega)
    simpa using h
  have k3 : skipOpt '/' (s.drop 8) = s.drop 8 :=
    skipOpt_of_digits '/' (by decide) _ (fun c hc => hd c (List.drop_subset 8 s hc))
  have e4 : matchDigits 4 (s.drop 8) = some (s.drop 12) := by
    have h := matchDigits_drop s hd 8 4 (by omega)
    simpa using h
  have k4 : skipOpt '-' (s.drop 12) = s.drop 12 :=
    skipOpt_of_digits '-' (by decide) _ (fun c hc => hd c (List.drop_subset 12 s hc))
  have e5 : matchDigits 2 (s.drop 12) = some (s.drop 14) := by
    have h := matchDigits_drop s hd 12 2 (by omega)
    simpa using h
  have e6 : s.drop 14 = [] := List.drop_eq_nil_of_le (by omega)
  simp only [Cnpj.isValidFormat, e1, k1, e2, k2, e3, k3, e4, k4, e5, e6]
  rfl

lemma take_append_pair (a : Str) (x y : Char) (n : Nat) (h : a.length = n) :
    (a ++ [x, y]).take n = a ∧ (a ++ [x, y]).get? n = some x ∧
      (a ++ [x, y]).take (n + 1) = a ++ [x] ∧ (a ++ [x, y]).get? (n + 1) = some y := by
  subst h
  refine ⟨List.take_left a _, ?_, ?_, ?_⟩
  · rw [List.get?_append_right (le_refl _)]
    simp
  · rw [show a ++ [x, y] = (a ++ [x]) ++ [y] by simp,
      show a.length + 1 = (a ++ [x]).length by simp]
    exact List.take_left _ _
  · rw [show a ++ [x, y] = (a ++ [x]) ++ [y] by simp,
      show a.length + 1 = (a ++ [x]).length by simp,
      List.get?_append_right (le_refl _)]
    simp

lemma cpf_generate_valid (draws : List Nat) (ninth : Nat) (hlen : draws.length = 8)
    (hd : ∀ d ∈ draws, d < 10) (hn : ninth < 10) :
    (Cpf.generate draws ninth).length = 11 ∧
      Cpf.isValidFormat (Cpf.generate draws ninth) = true ∧
      Cpf.isValidChecksum (Cpf.generate draws ninth) = true ∧
      (Cpf.isValid (JSInput.str (Cpf.generate draws ninth)) = true ↔
        Cpf.isReservedNumber (Cpf.generate draws ninth) = false) := by
  obtain ⟨base, hbase⟩ : ∃ b, draws.map digitChar ++ [digitChar ninth] = b := ⟨_, rfl⟩
  obtain ⟨m1, hm1⟩ : ∃ m, generateChecksumDesc base 10 % 11 = m := ⟨_, rfl⟩
  obtain ⟨d1, hd1e⟩ : ∃ d, (if m1 < 2 then 0 else 11 - m1) = d := ⟨_, rfl⟩
  obtain ⟨m2, hm2⟩ :
      ∃ m, generateChecksumDesc (base ++ [digitChar d1]) 11 % 11 = m := ⟨_, rfl⟩
  obtain ⟨d2, hd2e⟩ : ∃ d, (if m2 < 2 then 0 else 11 - m2) = d := ⟨_, rfl⟩
  have hgen : Cpf.generate draws ninth = base ++ [digitChar d1, digitChar d2] := by
    dsimp only [Cpf.generate]
    rw [hbase, hm1, hd1e, hm2, hd2e]
  have hblen : base.length = 9 := by rw [← hbase]; simp [hlen]
  have hbd : ∀ c ∈ base, c.isDigit = true := by
    intro c hc
    rw [← hbase] at hc
    rcases List.mem_append.mp hc with h | h
    · obtain ⟨d, hdm, rfl⟩ := List.mem_map.mp h
      exact digitChar_isDigit d (hd d hdm)
    · rw [List.mem_singleton] at h
      subst h
      exact digitChar_isDigit ninth hn
  have hm1lt : m1 < 11 := by rw [← hm1]; exact Nat.mod_lt _ (by norm_num)
  have hm2lt : m2 < 11 := by rw [← hm2]; exact Nat.mod_lt _ (by norm_num)
  have hd1lt : d1 < 10 := by
    rcases Nat.lt_or_ge m1 2 with h | h
    · rw [if_pos h] at hd1e
      omega
    · rw [if_neg (by omega)] at hd1e
      omega
  have hd2lt : d2 < 10 := by
    rcases Nat.lt_or_ge m2 2 with h | h
    · rw [if_pos h] at hd2e
      omega
    · rw [if_neg (by omega)] at hd2e
      omega
  have hg : ∀ c ∈ base ++ [digitChar d1, digitChar d2], c.isDigit = true := by
    intro c hc
    rcases List.mem_append.mp hc with h | h
    · exact hbd c h
    · simp only [List.mem_cons, List.mem_singleton, List.not_mem_nil, or_false] at h
      rcases h with rfl | rfl
      · exact digitChar_isDigit d1 hd1lt
      · exact digitChar_isDigit d2 hd2lt
  have hglen : (base ++ [digitChar d1, digitChar d2]).length = 11 := by simp [hblen]
  obtain ⟨ht9, hg9, ht10, hg10⟩ :=
    take_append_pair base (digitChar d1) (digitChar d2) 9 hblen
  norm_num at ht10 hg10 hg9
  have hchk : Cpf.isValidChecksum (base ++ [digitChar d1, digitChar d2]) = true := by
    simp only [Cpf.isValidChecksum, Cpf.CHECK_DIGITS_INDEXES, List.all_cons,
      List.all_nil, Cpf.checkDigitAt]
    norm_num [ht9, ht10]
    rw [hm1, hd1e, hm2, hd2e]
    exact ⟨hg9, hg10⟩
  have hfmt : Cpf.isValidFormat (base ++ [digitChar d1, digitChar d2]) = true :=
    cpf_isValidFormat_of_digits _ hglen hg
  have hon : onlyNumbers (base ++ [digitChar d1, digitChar d2]) =
      base ++ [digitChar d1, digitChar d2] := onlyNumbers_of_digits _ hg
  have hne : (base ++ [digitChar d1, digitChar d2]).isEmpty = false := by
    cases base with
    | nil => simp at hblen
    | cons c t => rfl
  rw [hgen]
  refine ⟨hglen, hfmt, hchk, ?_⟩
  show (if (base ++ [digitChar d1, digitChar d2]).isEmpty then false
    else Cpf.isValidStr (base ++ [digitChar d1, digitChar d2])) = true ↔ _
  rw [hne]
  dsimp only [Cpf.isValidStr]
  rw [hon, hfmt, hchk]
  cases hres : Cpf.isReservedNumber (base ++ [digitChar d1, digitChar d2]) <;> simp

lemma cnpj_generate_valid (draws : List Nat) (hlen : draws.length = 12)
    (hd : ∀ d ∈ draws, d < 10) :
    (Cnpj.generate draws).length = 14 ∧
      Cnpj.isValidFormat (Cnpj.generate draws) = true ∧
      Cnpj.isValidChecksum (Cnpj.generate draws) = true ∧
      (Cnpj.isValid (JSInput.str (Cnpj.generate draws)) = true ↔
        Cnpj.isReservedNumber (Cnpj.generate draws) = false) := by
  obtain ⟨base, hbase⟩ : ∃ b, draws.map digitChar = b := ⟨_, rfl⟩
  obtain ⟨m1, hm1⟩ :
      ∃ m, generateChecksumW base Cnpj.FIRST_CHECK_DIGIT_WEIGHTS % 11 = m := ⟨_, rfl⟩
  obtain ⟨d1, hd1e⟩ : ∃ d, (if m1 < 2 then 0 else 11 - m1) = d := ⟨_, rfl⟩
  obtain ⟨m2, hm2⟩ :
      ∃ m, generateChecksumW (base ++ [digitChar d1])
        (6 :: Cnpj.FIRST_CHECK_DIGIT_WEIGHTS) % 11 = m := ⟨_, rfl⟩
  obtain ⟨d2, hd2e⟩ : ∃ d, (if m2 < 2 then 0 else 11 - m2) = d := ⟨_, rfl⟩
  have hgen : Cnpj.generate draws = base ++ [digitChar d1, digitChar d2] := by
    dsimp only [Cnpj.generate, Cnpj.SECOND_CHECK_DIGIT_WEIGHTS]
    rw [hbase, hm1, hd1e, hm2, hd2e]
  have hblen : base.length = 12 := by rw [← hbase]; simp [hlen]
  have hbd : ∀ c ∈ base, c.isDigit = true := by
    intro c hc
    rw [← hbase] at hc
    obtain ⟨d, hdm, rfl⟩ := List.mem_map.mp hc
    exact digitChar_isDigit d (hd d hdm)
  have hm1lt : m1 < 11 := by rw [← hm1]; exact Nat.mod_lt _ (by norm_num)
  have hm2lt : m2 < 11 := by rw [← hm2]; exact Nat.mod_lt _ (by norm_num)
  have hd1lt : d1 < 10 := by
    rcases Nat.lt_or_ge m1 2 with h | h
    · rw [if_pos h] at hd1e
      omega
    · rw [if_neg (by omega)] at hd1e
      omega
  have hd2lt : d2 < 10 := by
    rcases Nat.lt_or_ge m2 2 with h | h
    · rw [if_pos h] at hd2e
      omega
    · rw [if_neg (by omega)] at hd2e
      omega
  have hg : ∀ c ∈ base ++ [digitChar d1, digitChar d2], c.isDigit = true := by
    intro c hc
    rcases List.mem_append.mp hc with h | h
    · exact hbd c h
    · simp only [List.mem_cons, List.mem_singleton, List.not_mem_nil, or_false] at h
      rcases h with rfl | rfl
      · exact digitChar_isDigit d1 hd1lt
      · exact digitChar_isDigit d2 hd2lt
  have hglen : (base ++ [digitChar d1, digitChar d2]).length = 14 := by simp [hblen]
  obtain ⟨ht12, hg12, ht13, hg13⟩ :=
    take_append_pair base (digitChar d1) (digitChar d2) 12 hblen
  norm_num at ht13 hg13 hg12
  have hchk : Cnpj.isValidChecksum (base ++ [digitChar d1, digitChar d2]) = true := by
    have hL : ([12, 13] : List Nat).getLast? = some 13 := rfl
    simp only [Cnpj.isValidChecksum, Cnpj.CHECK_DIGITS_INDEXES, List.foldl_cons,
      List.foldl_nil, hL]
    norm_num [ht12, ht13]
    rw [hm1, hd1e, hm2, hd2e]
    exact ⟨hg12, hg13⟩
  have hfmt : Cnpj.isValidFormat (base ++ [digitChar d1, digitChar d2]) = true :=
    cnpj_isValidFormat_of_digits _ hglen hg
  have hon : onlyNumbers (base ++ [digitChar d1, digitChar d2]) =
      base ++ [digitChar d1, digitChar d2] := onlyNumbers_of_digits _ hg
  have hne : (base ++ [digitChar d1, digitChar d2]).isEmpty = false := by
    cases base with
    | nil => simp at hblen
    | cons c t => rfl
  rw [hgen]
  refine ⟨hglen, hfmt, hchk, ?_⟩
  show (if (base ++ [digitChar d1, digitChar d2]).isEmpty then false
    else Cnpj.isValidStr (base ++ [digitChar d1, digitChar d2])) = true ↔ _
  rw [hne]
  dsimp only [Cnpj.isValidStr]
  rw [hon, hfmt, hchk]
  cases hres : Cnpj.isReservedNumber (base ++ [digitChar d1, digitChar d2]) <;> simp

/-- Claim C1, amended: for every sequence of random digit draws (and, for CPF,
every one-digit state code or ninth draw), the generated string has the fixed
length, a valid format and both mod-11 check digits correct; it satisfies
`isValid` exactly when it is not one of the reserved all-same-digit numbers
(all-zero draws, for instance, generate the reserved 00000000000). -/
theorem c1_generate_valid_unless_reserved :
    (∀ (draws : List Nat) (ninth : Nat), draws.length = 8 → (∀ d ∈ draws, d < 10) →
      ninth < 10 →
      (Cpf.generate draws ninth).length = 11 ∧
        Cpf.isValidFormat (Cpf.generate draws ninth) = true ∧
        Cpf.isValidChecksum (Cpf.generate draws ninth) = true ∧
        (Cpf.isValid (JSInput.str (Cpf.generate draws ninth)) = true ↔
          Cpf.isReservedNumber (Cpf.generate draws ninth) = false)) ∧
      (∀ draws : List Nat, draws.length = 12 → (∀ d ∈ draws, d < 10) →
        (Cnpj.generate draws).length = 14 ∧
          Cnpj.isValidFormat (Cnpj.generate draws) = true ∧
          Cnpj.isValidChecksum (Cnpj.generate draws) = true ∧
          (Cnpj.isValid (JSInput.str (Cnpj.generate draws)) = true ↔
            Cnpj.isReservedNumber (Cnpj.generate draws) = false)) :=
  ⟨cpf_generate_valid, cnpj_generate_valid⟩

/-- Witness for the amended C1 at concrete draws. -/
theorem c1_witness :
    Cpf.isValid (JSInput.str (Cpf.generate [1, 1, 1, 4, 4, 4, 7, 7] 7)) = true ∧
      Cnpj.isValid (JSInput.str (Cnpj.generate [1, 1, 2, 2, 2, 3, 3, 3, 0, 0, 0, 1])) =
        true := by
  have h1 := c1_generate_valid_unless_reserved.1 [1, 1, 1, 4, 4, 4, 7, 7] 7
    (by decide) (by decide) (by decide)
  have h2 := c1_generate_valid_unless_reserved.2 [1, 1, 2, 2, 2, 3, 3, 3, 0, 0, 0, 1]
    (by decide) (by decide)
  exact ⟨h1.2.2.2.mpr (by decide), h2.2.2.2.mpr (by decide)⟩
